import Mathlib

/-
Verification development for the ai-arena chess rules engine
(backend/app/chess_logic.py, backend/app/main.py, backend/app/utils.py).

The Python code is shallowly embedded: boards are lists of lists of
characters exactly as in the source ('.', 'p', 'P', ...), coordinates are
integers (row 0 = rank 8), the module-global `castling_rights` dictionary
becomes an explicit `Rights` value threaded through every function that
reads or writes it, and the FastAPI handlers' mutation of the module-level
STATE dictionary becomes explicit state passing on `SrvState`.  Python's
`while` loops over board rays become fuel-indexed structural recursion
(fuel 8 suffices on an 8x8 board, matching the loop bound).  Character
case tests mirror Python's `str.isupper`/`str.islower`/`str.lower` on the
ASCII piece alphabet used by the engine.
-/

namespace Arena

/-- A chess color, Python's 'white' / 'black' strings. -/
inductive Color where
  | white
  | black
deriving DecidableEq, Repr

/-- The four castling-rights flags, Python's module-global
`castling_rights = {'white': {'K':…,'Q':…}, 'black': {…}}` dictionary
made explicit. -/
structure Rights where
  wK : Bool
  wQ : Bool
  bK : Bool
  bQ : Bool
deriving DecidableEq, Repr

/-- The initial value of the module-global `castling_rights`
(chess_logic.py lines 13-16): all four flags true. -/
def castlingRightsInit : Rights := { wK := true, wQ := true, bK := true, bQ := true }

/-- A board is a list of rows of piece characters, as in the source. -/
abbrev Board := List (List Char)

/-- Python `str.isupper` on the ASCII piece alphabet. -/
def isUpperCh (c : Char) : Bool := 65 ≤ c.toNat && c.toNat ≤ 90

/-- Python `str.islower` on the ASCII piece alphabet. -/
def isLowerCh (c : Char) : Bool := 97 ≤ c.toNat && c.toNat ≤ 122

/-- Python `str.lower` on a single ASCII character. -/
def toLowerCh (c : Char) : Char :=
  if isUpperCh c then Char.ofNat (c.toNat + 32) else c

/-- `0 <= x < 8 and 0 <= y < 8`, the bounds guard used throughout the source. -/
def onBoard (x y : Int) : Bool := 0 ≤ x && x < 8 && 0 ≤ y && y < 8

/-- Read `board[x][y]`.  Every access in the source is guarded by an
`onBoard`-style check (or by caller-side validation), so the out-of-range
default is never observable on the translated paths. -/
def getCell (b : Board) (x y : Int) : Char :=
  if onBoard x y then (((b.get? x.toNat).getD []).get? y.toNat).getD '.' else '.'

/-- Write `board[x][y] = c` (same guarded-access convention). -/
def setCell (b : Board) (x y : Int) (c : Char) : Board :=
  if onBoard x y then b.set x.toNat (((b.get? x.toNat).getD []).set y.toNat c) else b

/-- `create_board()` (chess_logic.py lines 1-11). -/
def createBoard : Board :=
  [ ['r','n','b','q','k','b','n','r'],
    ['p','p','p','p','p','p','p','p'],
    ['.','.','.','.','.','.','.','.'],
    ['.','.','.','.','.','.','.','.'],
    ['.','.','.','.','.','.','.','.'],
    ['.','.','.','.','.','.','.','.'],
    ['P','P','P','P','P','P','P','P'],
    ['R','N','B','Q','K','B','N','R'] ]

/-- `FILES` (chess_logic.py line 18). -/
def FILES : List String := ["a","b","c","d","e","f","g","h"]

/-- `RANKS` (chess_logic.py line 19). -/
def RANKS : List String := ["1","2","3","4","5","6","7","8"]

/-- `xy_to_alg(x, y)` (chess_logic.py lines 21-24). -/
def xy_to_alg (x y : Int) : String :=
  ((FILES.get? y.toNat).getD "") ++ ((RANKS.get? (7 - x).toNat).getD "")

/-- Python `str.strip()` on a character list: drop leading and trailing
whitespace. -/
def stripChars (cs : List Char) : List Char :=
  ((cs.dropWhile Char.isWhitespace).reverse.dropWhile Char.isWhitespace).reverse

/-- `alg_to_xy(sq)` (chess_logic.py lines 26-32): `sq.strip().lower()`,
then file and rank lookup.  Python raises on a string shorter than two
characters or on an unknown file/rank; the fallbacks here are unreachable
for the well-formed squares the engine produces. -/
def alg_to_xy (sq : String) : Int × Int :=
  match (stripChars sq.data).map toLowerCh with
  | f :: r :: _ =>
      let y : Int := FILES.indexOf (String.mk [f])
      let x : Int := 7 - (RANKS.indexOf (String.mk [r]) : Int)
      (x, y)
  | _ => (0, 0)

/-- `_board_to_string(board)` (main.py lines 886-888, utils.py lines 128-138):
`''.join(''.join(row) for row in board)`. -/
def boardToString (b : Board) : String :=
  String.join (b.map (fun row => String.mk row))

/-- The row-major scan `for i in range(8): for j in range(8)` used by the
attack/check/enumeration loops. -/
def boardSquares : List (Int × Int) :=
  (List.range 8).flatMap (fun i => (List.range 8).map (fun j => (Int.ofNat i, Int.ofNat j)))

/-- `get_pawn_moves(board, x, y)` (chess_logic.py lines 61-84). -/
def get_pawn_moves (b : Board) (x y : Int) : List (Int × Int) :=
  let piece := getCell b x y
  let dir : Int := if piece = 'P' then -1 else 1
  let fwd1 := x + dir
  let forward : List (Int × Int) :=
    if 0 ≤ fwd1 ∧ fwd1 < 8 ∧ getCell b fwd1 y = '.' then
      if (piece = 'P' ∧ x = 6) ∨ (piece = 'p' ∧ x = 1) then
        let fwd2 := x + 2 * dir
        if 0 ≤ fwd2 ∧ fwd2 < 8 ∧ getCell b fwd2 y = '.' then
          [(fwd1, y), (fwd2, y)]
        else [(fwd1, y)]
      else [(fwd1, y)]
    else []
  let captures : List (Int × Int) :=
    ([-1, 1] : List Int).filterMap (fun dy =>
      let nx := x + dir
      let ny := y + dy
      if 0 ≤ nx ∧ nx < 8 ∧ 0 ≤ ny ∧ ny < 8 then
        let target := getCell b nx ny
        if (isUpperCh piece ∧ isLowerCh target) ∨ (isLowerCh piece ∧ isUpperCh target) then
          some (nx, ny)
        else none
      else none)
  forward ++ captures

/-- The `while` loop of `get_rook_moves`/`get_bishop_moves`: walk a ray,
collecting empty squares, stopping at the first occupied square (kept if
it is an enemy).  Fuel 8 bounds the loop exactly as the 8x8 board does. -/
def slideDir (b : Board) (piece : Char) (dx dy : Int) : Nat → Int → Int → List (Int × Int)
  | 0, _, _ => []
  | fuel + 1, nx, ny =>
      if onBoard nx ny then
        let target := getCell b nx ny
        if target = '.' then (nx, ny) :: slideDir b piece dx dy fuel (nx + dx) (ny + dy)
        else if (isUpperCh piece ∧ isLowerCh target) ∨ (isLowerCh piece ∧ isUpperCh target) then
          [(nx, ny)]
        else []
      else []

/-- `get_rook_moves(board, x, y)` (chess_logic.py lines 86-104). -/
def get_rook_moves (b : Board) (x y : Int) : List (Int × Int) :=
  let piece := getCell b x y
  ([(-1, 0), (1, 0), (0, -1), (0, 1)] : List (Int × Int)).flatMap
    (fun d => slideDir b piece d.1 d.2 8 (x + d.1) (y + d.2))

/-- `get_knight_moves(board, x, y)` (chess_logic.py lines 106-118). -/
def get_knight_moves (b : Board) (x y : Int) : List (Int × Int) :=
  let piece := getCell b x y
  ([(-2, -1), (-2, 1), (-1, -2), (-1, 2), (1, -2), (1, 2), (2, -1), (2, 1)] :
      List (Int × Int)).filterMap (fun d =>
    let nx := x + d.1
    let ny := y + d.2
    if onBoard nx ny then
      let target := getCell b nx ny
      if target = '.' ∨ (isUpperCh piece ∧ isLowerCh target) ∨
          (isLowerCh piece ∧ isUpperCh target) then
        some (nx, ny)
      else none
    else none)

/-- `get_bishop_moves(board, x, y)` (chess_logic.py lines 120-138). -/
def get_bishop_moves (b : Board) (x y : Int) : List (Int × Int) :=
  let piece := getCell b x y
  ([(-1, -1), (-1, 1), (1, -1), (1, 1)] : List (Int × Int)).flatMap
    (fun d => slideDir b piece d.1 d.2 8 (x + d.1) (y + d.2))

/-- `get_queen_moves(board, x, y)` (chess_logic.py lines 140-141). -/
def get_queen_moves (b : Board) (x y : Int) : List (Int × Int) :=
  get_rook_moves b x y ++ get_bishop_moves b x y

/-- The `while` loop of the slider branch of `get_attack_squares`: every
ray square is recorded, and the walk stops after the first occupied
square. -/
def attackRay (b : Board) (dx dy : Int) : Nat → Int → Int → List (Int × Int)
  | 0, _, _ => []
  | fuel + 1, nx, ny =>
      if onBoard nx ny then
        (nx, ny) ::
          (if getCell b nx ny ≠ '.' then []
           else attackRay b dx dy fuel (nx + dx) (ny + dy))
      else []

/-- `get_attack_squares(board, x, y)` (chess_logic.py lines 207-252). -/
def get_attack_squares (b : Board) (x y : Int) : List (Int × Int) :=
  let piece := getCell b x y
  if piece = '.' then []
  else
    let isWhite := isUpperCh piece
    let p := toLowerCh piece
    if p = 'p' then
      let dir : Int := if isWhite then -1 else 1
      ([-1, 1] : List Int).filterMap (fun dy =>
        let nx := x + dir
        let ny := y + dy
        if onBoard nx ny then some (nx, ny) else none)
    else if p = 'n' then
      ([(-2, -1), (-2, 1), (-1, -2), (-1, 2), (1, -2), (1, 2), (2, -1), (2, 1)] :
          List (Int × Int)).filterMap (fun d =>
        let nx := x + d.1
        let ny := y + d.2
        if onBoard nx ny then some (nx, ny) else none)
    else if p = 'b' ∨ p = 'r' ∨ p = 'q' then
      let dirs : List (Int × Int) :=
        (if p = 'b' ∨ p = 'q' then [(-1, -1), (-1, 1), (1, -1), (1, 1)] else []) ++
        (if p = 'r' ∨ p = 'q' then [(-1, 0), (1, 0), (0, -1), (0, 1)] else [])
      dirs.flatMap (fun d => attackRay b d.1 d.2 8 (x + d.1) (y + d.2))
    else if p = 'k' then
      ([(-1, -1), (-1, 0), (-1, 1), (0, -1), (0, 1), (1, -1), (1, 0), (1, 1)] :
          List (Int × Int)).filterMap (fun d =>
        let nx := x + d.1
        let ny := y + d.2
        if onBoard nx ny then some (nx, ny) else none)
    else []

/-- `is_square_attacked(board, color, x, y)` (chess_logic.py lines 254-267). -/
def is_square_attacked (b : Board) (color : Color) (x y : Int) : Bool :=
  let enemyIsWhite := color = Color.black
  boardSquares.any (fun s =>
    let p := getCell b s.1 s.2
    if p = '.' then false
    else
      ((decide enemyIsWhite && isUpperCh p) || (!(decide enemyIsWhite) && isLowerCh p)) &&
        decide ((x, y) ∈ get_attack_squares b s.1 s.2))

/-- The king-locating loop at the top of `is_in_check` (chess_logic.py
lines 270-278): the first square in row-major order holding the king
symbol, `none` when the board has no such king. -/
def findKing (b : Board) (color : Color) : Option (Int × Int) :=
  let kingSymbol : Char := if color = Color.white then 'K' else 'k'
  boardSquares.find? (fun s => getCell b s.1 s.2 = kingSymbol)

/-- Python's `king_pos in get_attack_squares(...)` where `king_pos` may be
`None`: `None in <list of pairs>` is always `False`. -/
def optMem (o : Option (Int × Int)) (l : List (Int × Int)) : Bool :=
  match o with
  | none => false
  | some p => decide (p ∈ l)

/-- `is_in_check(board, color)` (chess_logic.py lines 269-291). -/
def is_in_check (b : Board) (color : Color) : Bool :=
  let kingPos := findKing b color
  boardSquares.any (fun s =>
    let piece := getCell b s.1 s.2
    if piece = '.' then false
    else if color = Color.white then
      isLowerCh piece && optMem kingPos (get_attack_squares b s.1 s.2)
    else
      isUpperCh piece && optMem kingPos (get_attack_squares b s.1 s.2))

/-- `can_castle_kingside(board, color)` (chess_logic.py lines 143-159),
with the module-global rights passed explicitly. -/
def can_castle_kingside (b : Board) (r : Rights) (color : Color) : Bool :=
  let row : Int := if color = Color.white then 7 else 0
  let rook : Char := if color = Color.white then 'R' else 'r'
  let flag : Bool := if color = Color.white then r.wK else r.bK
  if !flag then false
  else if getCell b row 5 ≠ '.' ∨ getCell b row 6 ≠ '.' then false
  else if getCell b row 7 ≠ rook then false
  else if is_in_check b color then false
  else if is_square_attacked b color row 5 then false
  else if is_square_attacked b color row 6 then false
  else true

/-- `can_castle_queenside(board, color)` (chess_logic.py lines 161-177). -/
def can_castle_queenside (b : Board) (r : Rights) (color : Color) : Bool :=
  let row : Int := if color = Color.white then 7 else 0
  let rook : Char := if color = Color.white then 'R' else 'r'
  let flag : Bool := if color = Color.white then r.wQ else r.bQ
  if !flag then false
  else if getCell b row 1 ≠ '.' ∨ getCell b row 2 ≠ '.' ∨ getCell b row 3 ≠ '.' then false
  else if getCell b row 0 ≠ rook then false
  else if is_in_check b color then false
  else if is_square_attacked b color row 3 then false
  else if is_square_attacked b color row 2 then false
  else true

/-- `get_king_moves(board, x, y)` (chess_logic.py lines 179-205). -/
def get_king_moves (b : Board) (r : Rights) (x y : Int) : List (Int × Int) :=
  let piece := getCell b x y
  let base : List (Int × Int) :=
    ([(-1, -1), (-1, 0), (-1, 1), (0, -1), (0, 1), (1, -1), (1, 0), (1, 1)] :
        List (Int × Int)).filterMap (fun d =>
      let nx := x + d.1
      let ny := y + d.2
      if onBoard nx ny then
        let target := getCell b nx ny
        if target = '.' ∨ (isUpperCh piece ∧ isLowerCh target) ∨
            (isLowerCh piece ∧ isUpperCh target) then
          some (nx, ny)
        else none
      else none)
  let whiteCastles : List (Int × Int) :=
    if piece = 'K' ∧ x = 7 ∧ y = 4 then
      (if can_castle_kingside b r Color.white then [((7 : Int), (6 : Int))] else []) ++
      (if can_castle_queenside b r Color.white then [((7 : Int), (2 : Int))] else [])
    else []
  let blackCastles : List (Int × Int) :=
    if piece = 'k' ∧ x = 0 ∧ y = 4 then
      (if can_castle_kingside b r Color.black then [((0 : Int), (6 : Int))] else []) ++
      (if can_castle_queenside b r Color.black then [((0 : Int), (2 : Int))] else [])
    else []
  base ++ whiteCastles ++ blackCastles

/-- The board mutation performed by `move_piece` (chess_logic.py lines
331-375): the castling rook relocation followed by moving the piece.  The
`simulate` flag only gates the castling-rights writes, never the board
writes, so this is the board effect for both simulated and applied
moves. -/
def movePieceBoard (b : Board) (fx fy tx ty : Int) : Board :=
  let piece := getCell b fx fy
  let b1 :=
    if piece = 'K' ∧ fx = 7 ∧ fy = 4 then
      (if tx = 7 ∧ ty = 6 then setCell (setCell b 7 5 'R') 7 7 '.'
       else if tx = 7 ∧ ty = 2 then setCell (setCell b 7 3 'R') 7 0 '.'
       else b)
    else if piece = 'k' ∧ fx = 0 ∧ fy = 4 then
      (if tx = 0 ∧ ty = 6 then setCell (setCell b 0 5 'r') 0 7 '.'
       else if tx = 0 ∧ ty = 2 then setCell (setCell b 0 3 'r') 0 0 '.'
       else b)
    else b
  setCell (setCell b1 tx ty piece) fx fy '.'

/-- `_update_castling_rights_on_capture(to_x, to_y, captured_piece)`
(chess_logic.py lines 49-59). -/
def updateRightsOnCapture (tx ty : Int) (captured : Char) (r : Rights) : Rights :=
  if captured = 'R' then
    (if tx = 7 ∧ ty = 0 then { r with wQ := false }
     else if tx = 7 ∧ ty = 7 then { r with wK := false }
     else r)
  else if captured = 'r' then
    (if tx = 0 ∧ ty = 0 then { r with bQ := false }
     else if tx = 0 ∧ ty = 7 then { r with bK := false }
     else r)
  else r

/-- The castling-rights writes performed by a non-simulated `move_piece`
call (chess_logic.py lines 335-372).  All the character/coordinate tests
read the pre-move board (`piece` and `captured` are bound before any
board write in the source). -/
def updateRightsOnMove (b : Board) (fx fy tx ty : Int) (r : Rights) : Rights :=
  let piece := getCell b fx fy
  let captured := getCell b tx ty
  let r1 := if captured = 'R' ∨ captured = 'r' then updateRightsOnCapture tx ty captured r else r
  let r2 := if piece = 'K' ∧ fx = 7 ∧ fy = 4 then { r1 with wK := false, wQ := false } else r1
  let r3 := if piece = 'k' ∧ fx = 0 ∧ fy = 4 then { r2 with bK := false, bQ := false } else r2
  let r4 :=
    if piece = 'R' then
      (if fx = 7 ∧ fy = 0 then { r3 with wQ := false }
       else if fx = 7 ∧ fy = 7 then { r3 with wK := false }
       else r3)
    else r3
  let r5 :=
    if piece = 'r' then
      (if fx = 0 ∧ fy = 0 then { r4 with bQ := false }
       else if fx = 0 ∧ fy = 7 then { r4 with bK := false }
       else r4)
    else r4
  r5

/-- `move_piece(board, from_x, from_y, to_x, to_y, simulate)`
(chess_logic.py lines 331-375): returns the mutated board together with
the (possibly) mutated module-global castling rights. -/
def movePiece (b : Board) (r : Rights) (fx fy tx ty : Int) (simulate : Bool) :
    Board × Rights :=
  (movePieceBoard b fx fy tx ty,
   if simulate then r else updateRightsOnMove b fx fy tx ty r)

/-- `get_piece_moves(board, x, y)` (chess_logic.py lines 392-418): raw
per-piece moves filtered by simulating each candidate with
`move_piece(..., simulate=True)` on a board copy and discarding those
that leave the mover's own king in check. -/
def get_piece_moves (b : Board) (r : Rights) (x y : Int) : List (Int × Int) :=
  let piece := getCell b x y
  if piece = '.' then []
  else
    let color := if isUpperCh piece then Color.white else Color.black
    let raw : List (Int × Int) :=
      if toLowerCh piece = 'p' then get_pawn_moves b x y
      else if toLowerCh piece = 'r' then get_rook_moves b x y
      else if toLowerCh piece = 'n' then get_knight_moves b x y
      else if toLowerCh piece = 'b' then get_bishop_moves b x y
      else if toLowerCh piece = 'q' then get_queen_moves b x y
      else if toLowerCh piece = 'k' then get_king_moves b r x y
      else []
    raw.filter (fun m => !(is_in_check (movePieceBoard b x y m.1 m.2) color))

/-- `is_checkmate(board, color)` (chess_logic.py lines 293-311). -/
def is_checkmate (b : Board) (r : Rights) (color : Color) : Bool :=
  if is_in_check b color then
    !(boardSquares.any (fun s =>
      let piece := getCell b s.1 s.2
      if piece = '.' ∨ (color = Color.white ∧ isLowerCh piece) ∨
          (color = Color.black ∧ isUpperCh piece) then false
      else
        (get_piece_moves b r s.1 s.2).any (fun m =>
          !(is_in_check (movePieceBoard b s.1 s.2 m.1 m.2) color))))
  else false

/-- `is_stalemate(board, color)` (chess_logic.py lines 313-329). -/
def is_stalemate (b : Board) (r : Rights) (color : Color) : Bool :=
  if is_in_check b color then false
  else
    !(boardSquares.any (fun s =>
      let piece := getCell b s.1 s.2
      if piece = '.' ∨ (color = Color.white ∧ isLowerCh piece) ∨
          (color = Color.black ∧ isUpperCh piece) then false
      else
        (get_piece_moves b r s.1 s.2).any (fun m =>
          !(is_in_check (movePieceBoard b s.1 s.2 m.1 m.2) color))))

/-- `_valid_xy(x, y)` (main.py lines 858-859). -/
def validXY (x y : Int) : Bool := 0 ≤ x && x < 8 && 0 ≤ y && y < 8

/-- `_is_strict_legal(board, side, fx, fy, tx, ty)` (main.py lines 60-65,
utils.py lines 22-39).  The `move_piece` call on the cloned board uses the
default `simulate=False`, so it writes the module-global castling rights;
the pair returned here carries that global-state effect. -/
def isStrictLegal (b : Board) (r : Rights) (side : Color) (fx fy tx ty : Int) :
    Bool × Rights :=
  if (tx, ty) ∉ get_piece_moves b r fx fy then (false, r)
  else
    let res := movePiece b r fx fy tx ty false
    (!(is_in_check res.1 side), res.2)

/-- `_collect_legal_moves_for_side(board, side)` (main.py lines 67-81,
utils.py lines 42-66), with the module-global castling rights threaded
through: each square's move list is generated with the rights current at
that point, and every `_is_strict_legal` call may mutate them. -/
def collectLegalMovesForSide (b : Board) (r : Rights) (side : Color) :
    List (Int × Int × Int × Int) × Rights :=
  boardSquares.foldl
    (fun acc s =>
      let piece := getCell b s.1 s.2
      if piece = '.' ∨ (side = Color.white ∧ ¬ (isUpperCh piece = true)) ∨
          (side = Color.black ∧ ¬ (isLowerCh piece = true)) then acc
      else
        (get_piece_moves b acc.2 s.1 s.2).foldl
          (fun acc2 m =>
            let res := isStrictLegal b acc2.2 side s.1 s.2 m.1 m.2
            (if res.1 then acc2.1 ++ [(s.1, s.2, m.1, m.2)] else acc2.1, res.2))
          acc)
    ([], r)

/-- `_would_repeat_position(board, fx, fy, tx, ty, position_history)`
(utils.py lines 161-183; main.py lines 890-901 is the same computation
with the history read from STATE): simulate the candidate on a clone with
`move_piece` (default `simulate=False`, hence the rights component),
canonicalize, and test whether the position already occurred at least
twice. -/
def wouldRepeatPosition (b : Board) (r : Rights) (fx fy tx ty : Int)
    (positionHistory : List String) : Bool × Rights :=
  let res := movePiece b r fx fy tx ty false
  let newPosition := boardToString res.1
  (decide (2 ≤ positionHistory.count newPosition), res.2)

/-- The mutable per-process server STATE (main.py lines 838-847) together
with the module-global castling rights of chess_logic.py, which is the
rest of the process-global mutable state the chess handlers touch.
(`game_start_time` / `game_active` / `move_history` only feed the
out-of-scope persistence layer and prompts, and are omitted.) -/
structure SrvState where
  board : Board
  turn : Color
  rights : Rights
  lastMove : Option (String × String)
  moveCount : Nat
  positionHistory : List String
deriving Repr

/-- `new_game()` (main.py lines 1004-1014): rebuilds the board, turn,
counters and histories, but never touches the module-global
`castling_rights`. -/
def newGame (s : SrvState) : SrvState :=
  { s with
    board := createBoard
    turn := Color.white
    lastMove := none
    moveCount := 0
    positionHistory := [boardToString createBoard] }

/-- `reset_game()` (main.py lines 1016-1026): same writes as `new_game`
except the position history starts empty; the module-global
`castling_rights` is again untouched. -/
def resetGame (s : SrvState) : SrvState :=
  { s with
    board := createBoard
    turn := Color.white
    lastMove := none
    moveCount := 0
    positionHistory := [] }

/-- The rejection conditions of the `/move` handler. -/
inductive MoveErr where
  | outOfBounds
  | noPiece
  | wrongTurn
  | illegalMove
  | kingExposed
deriving DecidableEq, Repr

/-- `make_move(payload)` (main.py lines 1120-1185), the `/move` handler:
validation guards (each `raise` happens before any board write), applying
the move, promotion (defaulting to queen on a missing or invalid kind),
and the history/turn updates.  The checkmate/stalemate/check response
flags are computed on board copies and do not alter the state, so they
are not part of the returned value.  On a raise the state is returned as
it stood at that point (only the strict-legality guard has touched the
global rights by then). -/
def makeMove (s : SrvState) (fx fy tx ty : Int) (promotion : Option Char) :
    SrvState × Option MoveErr :=
  let b := s.board
  let turn := s.turn
  if !(validXY fx fy && validXY tx ty) then (s, some MoveErr.outOfBounds)
  else
    let piece := getCell b fx fy
    if piece = '.' then (s, some MoveErr.noPiece)
    else if turn = Color.white ∧ isLowerCh piece = true then (s, some MoveErr.wrongTurn)
    else if turn = Color.black ∧ isUpperCh piece = true then (s, some MoveErr.wrongTurn)
    else if (tx, ty) ∉ get_piece_moves b s.rights fx fy then (s, some MoveErr.illegalMove)
    else
      let sl := isStrictLegal b s.rights turn fx fy tx ty
      if !sl.1 then ({ s with rights := sl.2 }, some MoveErr.kingExposed)
      else
        let mp := movePiece b sl.2 fx fy tx ty false
        let b2 := mp.1
        let moved := getCell b2 tx ty
        let b3 :=
          if moved = 'P' ∧ tx = 0 then
            let choice := promotion.getD 'Q'
            setCell b2 tx ty
              (if choice = 'Q' ∨ choice = 'R' ∨ choice = 'B' ∨ choice = 'N' then choice else 'Q')
          else if moved = 'p' ∧ tx = 7 then
            let choice := promotion.getD 'q'
            setCell b2 tx ty
              (if choice = 'q' ∨ choice = 'r' ∨ choice = 'b' ∨ choice = 'n' then choice else 'q')
          else b2
        let opp := if turn = Color.white then Color.black else Color.white
        ({ board := b3
           turn := opp
           rights := mp.2
           lastMove := some (xy_to_alg fx fy, xy_to_alg tx ty)
           moveCount := s.moveCount + 1
           positionHistory := s.positionHistory ++ [boardToString b3] },
         none)

/-- The move-application tail of the `/ai-step` handler (main.py lines
1347-1362): `_apply_move_tuple` (an applied `move_piece` plus the
last-move record), the move-count bump, the position-history append, and
only then the automatic queen promotion.  The status flags are again
computed on copies and do not alter the state. -/
def aiStepApply (s : SrvState) (fx fy tx ty : Int) : SrvState :=
  let mp := movePiece s.board s.rights fx fy tx ty false
  let b1 := mp.1
  let hist := s.positionHistory ++ [boardToString b1]
  let moved := getCell b1 tx ty
  let b2 :=
    if moved = 'P' ∧ tx = 0 then setCell b1 tx ty 'Q'
    else if moved = 'p' ∧ tx = 7 then setCell b1 tx ty 'q'
    else b1
  let opp := if s.turn = Color.white then Color.black else Color.white
  { board := b2
    turn := opp
    rights := mp.2
    lastMove := some (xy_to_alg fx fy, xy_to_alg tx ty)
    moveCount := s.moveCount + 1
    positionHistory := hist }

end Arena

namespace Arena

/-- An 8x8 board with no pieces at all (no king of either color). -/
def emptyBoard : Board := List.replicate 8 (List.replicate 8 '.')

lemma mem_boardSquares_iff (x y : Int) :
    (x, y) ∈ boardSquares ↔ 0 ≤ x ∧ x < 8 ∧ 0 ≤ y ∧ y < 8 := by
  constructor
  · intro h
    rcases List.mem_flatMap.mp h with ⟨i, hi, hmem⟩
    rcases List.mem_map.mp hmem with ⟨j, hj, heq⟩
    rw [List.mem_range] at hi hj
    injection heq with h1 h2
    rw [Int.ofNat_eq_natCast] at h1 h2
    refine ⟨?_, ?_, ?_, ?_⟩ <;> omega
  · intro ⟨hx0, hx8, hy0, hy8⟩
    refine List.mem_flatMap.mpr ⟨x.toNat, List.mem_range.mpr (by omega),
      List.mem_map.mpr ⟨y.toNat, List.mem_range.mpr (by omega), ?_⟩⟩
    rw [Prod.mk.injEq, Int.ofNat_eq_natCast, Int.ofNat_eq_natCast]
    constructor <;> omega


/-- Membership in `get_piece_moves` output implies the simulated board is
not in check for the piece's own color (the filter at chess_logic.py
lines 412-418). -/
lemma mem_get_piece_moves_not_check {b : Board} {r : Rights} {x y : Int}
    {m : Int × Int} (h : m ∈ get_piece_moves b r x y) :
    is_in_check (movePieceBoard b x y m.1 m.2)
      (if isUpperCh (getCell b x y) then Color.white else Color.black) = false := by
  by_cases hp : getCell b x y = '.'
  · simp [get_piece_moves, hp] at h
  · simp only [get_piece_moves, if_neg hp] at h
    have h2 := (List.mem_filter.mp h).2
    simpa using h2

/-- C1 (Legality soundness): every destination returned by
`get_piece_moves(board, x, y)` for a piece of color `C`, when applied
with `move_piece`, yields a board on which `is_in_check` for `C` is
false. -/
theorem legal_moves_sound (b : Board) (r : Rights) (x y tx ty : Int) (C : Color)
    (_hpiece : getCell b x y ≠ '.')
    (hcolor : C = (if isUpperCh (getCell b x y) then Color.white else Color.black))
    (hmem : (tx, ty) ∈ get_piece_moves b r x y) :
    is_in_check ((movePiece b r x y tx ty false).1) C = false := by
  subst hcolor
  show is_in_check (movePieceBoard b x y tx ty) _ = false
  exact mem_get_piece_moves_not_check (m := (tx, ty)) hmem

set_option maxHeartbeats 2000000 in
/-- Witness for C1 at white's e2 pawn on the initial board, destination e4. -/
theorem legal_moves_sound_witness :
    ((4 : Int), (4 : Int)) ∈ get_piece_moves createBoard castlingRightsInit 6 4 ∧
    is_in_check ((movePiece createBoard castlingRightsInit 6 4 4 4 false).1) Color.white = false :=
  ⟨by decide, legal_moves_sound createBoard castlingRightsInit 6 4 4 4 Color.white
    (by decide) (by decide) (by decide)⟩


/-- C10: when the board holds no king of the given color, the king scan
comes back `None` and every `king_pos in attacks` test is `False`, so
`is_in_check` returns `False` instead of failing.  (Totality on arbitrary
boards is inherent: `is_in_check` is a total function of the board.) -/
theorem is_in_check_no_king (b : Board) (c : Color)
    (h : findKing b c = none) : is_in_check b c = false := by
  rw [is_in_check, h, List.any_eq_false]
  intro s _
  by_cases hp : getCell b s.1 s.2 = '.'
  · simp [hp]
  · cases c <;> simp [hp, optMem]

/-- Witness for C10: the empty board has no white king and is reported
not in check. -/
theorem is_in_check_no_king_witness :
    findKing emptyBoard Color.white = none ∧ is_in_check emptyBoard Color.white = false :=
  ⟨by decide, is_in_check_no_king emptyBoard Color.white (by decide)⟩

/-- C9: the coordinate encodings round-trip on all 64 squares, and row 0,
column 0 encodes as "a8" (row 0 is rank 8). -/
theorem coordinate_round_trip :
    (∀ x : Nat, x < 8 → ∀ y : Nat, y < 8 →
      alg_to_xy (xy_to_alg (Int.ofNat x) (Int.ofNat y)) = (Int.ofNat x, Int.ofNat y)) ∧
    xy_to_alg 0 0 = "a8" := by
  constructor
  · decide
  · decide

/-- Witness for C9 at (row, col) = (0, 0). -/
theorem coordinate_round_trip_witness :
    alg_to_xy (xy_to_alg (Int.ofNat 0) (Int.ofNat 0)) = (Int.ofNat 0, Int.ofNat 0) :=
  coordinate_round_trip.1 0 (by decide) 0 (by decide)


/-- C7: `_would_repeat_position` returns true exactly when the canonical
string of the simulated position already occurs at least twice in the
position history (so applying the candidate would be the third
occurrence).  "Occurs at least twice" is expressed as the two-element
replicate list being a sublist of the history. -/
theorem would_repeat_iff (b : Board) (r : Rights) (fx fy tx ty : Int)
    (hist : List String) :
    (wouldRepeatPosition b r fx fy tx ty hist).1 = true ↔
      List.Sublist (List.replicate 2 (boardToString (movePieceBoard b fx fy tx ty))) hist := by
  rw [wouldRepeatPosition]
  simp only [movePiece, decide_eq_true_eq]
  exact List.le_count_iff_replicate_sublist

/-- Witness for C7: a history holding the simulated position twice makes
`_would_repeat_position` answer true. -/
theorem would_repeat_iff_witness :
    (wouldRepeatPosition emptyBoard castlingRightsInit 0 0 1 0
      [boardToString (movePieceBoard emptyBoard 0 0 1 0),
       boardToString (movePieceBoard emptyBoard 0 0 1 0)]).1 = true :=
  (would_repeat_iff emptyBoard castlingRightsInit 0 0 1 0 _).mpr (List.Sublist.refl _)

/-- Fixture for C2: lone kings on their home squares, all rights set. -/
def twoKingsBoard : Board :=
  [ ['.','.','.','.','k','.','.','.'],
    ['.','.','.','.','.','.','.','.'],
    ['.','.','.','.','.','.','.','.'],
    ['.','.','.','.','.','.','.','.'],
    ['.','.','.','.','.','.','.','.'],
    ['.','.','.','.','.','.','.','.'],
    ['.','.','.','.','.','.','.','.'],
    ['.','.','.','.','K','.','.','.'] ]

/-- C2 (code bug): collecting white's legal moves is not a pure query of
the castling rights.  `_is_strict_legal` simulates each candidate with
`move_piece` at the default `simulate=False`, so the white king's
simulated moves from e1 write both white flags false in the module-global
rights, which therefore do not keep the values they had before the
call. -/
theorem collect_legal_moves_mutates_rights :
    (collectLegalMovesForSide twoKingsBoard castlingRightsInit Color.white).2.wK = false ∧
    castlingRightsInit.wK = true := by
  constructor
  · decide
  · decide

/-- Fixture for C3: the castling-rights value reached from a fresh game
after white plays a2a4, black a7a5, and white moves the a1 rook to a3
(all applied, non-simulated moves). -/
def rightsAfterRookGame : Rights :=
  (movePiece
    (movePiece
      (movePiece createBoard castlingRightsInit 6 0 4 0 false).1
      (movePiece createBoard castlingRightsInit 6 0 4 0 false).2 1 0 3 0 false).1
    (movePiece
      (movePiece createBoard castlingRightsInit 6 0 4 0 false).1
      (movePiece createBoard castlingRightsInit 6 0 4 0 false).2 1 0 3 0 false).2
    7 0 5 0 false).2

/-- The server state reached after that short game. -/
def stateAfterRookGame : SrvState :=
  { board :=
      (movePiece
        (movePiece
          (movePiece createBoard castlingRightsInit 6 0 4 0 false).1
          (movePiece createBoard castlingRightsInit 6 0 4 0 false).2 1 0 3 0 false).1
        (movePiece
          (movePiece createBoard castlingRightsInit 6 0 4 0 false).1
          (movePiece createBoard castlingRightsInit 6 0 4 0 false).2 1 0 3 0 false).2
        7 0 5 0 false).1
    turn := Color.black
    rights := rightsAfterRookGame
    lastMove := some ("a1", "a3")
    moveCount := 3
    positionHistory := [] }

/-- C3 (code bug): the white queenside flag was revoked by the rook move
of the previous game, and `new_game()` does not reset the module-global
`castling_rights`, so the fresh game starts with the flag still false,
where the claim requires all four flags true. -/
theorem new_game_keeps_stale_rights :
    rightsAfterRookGame.wQ = false ∧
    (newGame stateAfterRookGame).rights.wQ = false ∧
    (resetGame stateAfterRookGame).rights.wQ = false := by
  refine ⟨by decide, by decide, by decide⟩

/-- Fixture for C4: white pawn on a7 about to promote, kings on e1/e8. -/
def promoBoard : Board :=
  [ ['.','.','.','.','k','.','.','.'],
    ['P','.','.','.','.','.','.','.'],
    ['.','.','.','.','.','.','.','.'],
    ['.','.','.','.','.','.','.','.'],
    ['.','.','.','.','.','.','.','.'],
    ['.','.','.','.','.','.','.','.'],
    ['.','.','.','.','.','.','.','.'],
    ['.','.','.','.','K','.','.','.'] ]

/-- The server state holding that board at white's turn. -/
def promoState : SrvState :=
  { board := promoBoard
    turn := Color.white
    rights := castlingRightsInit
    lastMove := none
    moveCount := 0
    positionHistory := [boardToString promoBoard] }

/-- C4 (code bug): in the `/ai-step` handler the position history is
appended before the automatic queen promotion is written to the board, so
after the promoting move a7a8 the last recorded encoding still contains
the pawn while the returned board contains the queen: the last element of
the history differs from the canonical string of the final board.  (The
first conjunct shows the promoting move is in the legal-move set, hence
reachable.) -/
theorem ai_step_history_misses_promotion :
    ((0 : Int), (0 : Int)) ∈ get_piece_moves promoBoard castlingRightsInit 1 0 ∧
    (aiStepApply promoState 1 0 0 0).positionHistory.getLast? ≠
      some (boardToString (aiStepApply promoState 1 0 0 0).board) := by
  refine ⟨by decide, by decide⟩

/-- Fixture for C6: rooks facing each other on the a-file, kings on e1/e8,
so white's a1 rook can capture black's a8 rook (both on home squares). -/
def rookVsRookBoard : Board :=
  [ ['r','.','.','.','k','.','.','.'],
    ['.','.','.','.','.','.','.','.'],
    ['.','.','.','.','.','.','.','.'],
    ['.','.','.','.','.','.','.','.'],
    ['.','.','.','.','.','.','.','.'],
    ['.','.','.','.','.','.','.','.'],
    ['.','.','.','.','.','.','.','.'],
    ['R','.','.','.','K','.','.','.'] ]

/-- Counterexample to C6 as stated: white's a1 rook captures black's a8
rook, a legal applied move capturing a rook on its home square, yet
besides the captured side's queenside flag the capturing side's queenside
flag also flips false, so "the other three flags keep their values"
fails. -/
theorem rights_revocation_counterexample :
    getCell rookVsRookBoard 0 0 = 'r' ∧
    ((0 : Int), (0 : Int)) ∈ get_piece_moves rookVsRookBoard castlingRightsInit 7 0 ∧
    (movePiece rookVsRookBoard castlingRightsInit 7 0 0 0 false).2.bQ = false ∧
    (movePiece rookVsRookBoard castlingRightsInit 7 0 0 0 false).2.wQ = false ∧
    castlingRightsInit.wQ = true := by
  refine ⟨by decide, by decide, by decide, by decide, by decide⟩


lemma upper_not_lower {ch : Char} (h : isUpperCh ch = true) : isLowerCh ch = false := by
  simp only [isUpperCh, Bool.and_eq_true, decide_eq_true_eq] at h
  simp only [isLowerCh, Bool.and_eq_true, decide_eq_true_eq, Bool.and_eq_false_iff,
    decide_eq_false_iff_not]
  omega

lemma lower_not_upper {ch : Char} (h : isLowerCh ch = true) : isUpperCh ch = false := by
  simp only [isLowerCh, Bool.and_eq_true, decide_eq_true_eq] at h
  simp only [isUpperCh, Bool.and_eq_true, decide_eq_true_eq, Bool.and_eq_false_iff,
    decide_eq_false_iff_not]
  omega

lemma upper_ne_dot {ch : Char} (h : isUpperCh ch = true) : ch ≠ '.' := by
  intro hch
  rw [hch] at h
  exact absurd h (by decide)

lemma lower_ne_dot {ch : Char} (h : isLowerCh ch = true) : ch ≠ '.' := by
  intro hch
  rw [hch] at h
  exact absurd h (by decide)

/-- A cell character that is neither '.' nor cased generates no moves:
`piece.lower()` matches none of the six piece letters, so the raw move
list is empty. -/
lemma get_piece_moves_uncased_nil (b : Board) (r : Rights) (x y : Int)
    (h1 : getCell b x y ≠ '.') (h2 : isUpperCh (getCell b x y) = false)
    (h3 : isLowerCh (getCell b x y) = false) : get_piece_moves b r x y = [] := by
  have hlow : toLowerCh (getCell b x y) = getCell b x y := by
    simp [toLowerCh, h2]
  have hap : ∀ ch : Char, isLowerCh ch = true → getCell b x y ≠ ch := by
    intro ch hch heq
    rw [heq, hch] at h3
    exact absurd h3 (by decide)
  simp only [get_piece_moves, if_neg h1, hlow]
  rw [if_neg (hap 'p' (by decide)), if_neg (hap 'r' (by decide)),
    if_neg (hap 'n' (by decide)), if_neg (hap 'b' (by decide)),
    if_neg (hap 'q' (by decide)), if_neg (hap 'k' (by decide))]
  rfl


/-- C5: `is_checkmate(board, color)` is true exactly when the color is in
check and `get_piece_moves` is empty on every square occupied by a piece
of that color. -/
theorem is_checkmate_iff (b : Board) (r : Rights) (c : Color) :
    is_checkmate b r c = true ↔
      (is_in_check b c = true ∧
       ∀ x y : Int, 0 ≤ x → x < 8 → 0 ≤ y → y < 8 →
         ((c = Color.white ∧ isUpperCh (getCell b x y) = true) ∨
          (c = Color.black ∧ isLowerCh (getCell b x y) = true)) →
         get_piece_moves b r x y = []) := by
  by_cases hchk : is_in_check b c = true
  · rw [is_checkmate, if_pos hchk, Bool.not_eq_true', List.any_eq_false]
    simp only [hchk, true_and]
    constructor
    · intro hall x y hx0 hx8 hy0 hy8 hcol
      by_contra hne
      have hs := hall (x, y) ((mem_boardSquares_iff x y).mpr ⟨hx0, hx8, hy0, hy8⟩)
      have hskip : ¬(getCell b x y = '.' ∨ (c = Color.white ∧ isLowerCh (getCell b x y)) ∨
          (c = Color.black ∧ isUpperCh (getCell b x y))) := by
        rcases hcol with ⟨hc, hu⟩ | ⟨hc, hl⟩
        · subst hc
          rintro (hdot | ⟨_, hl⟩ | ⟨hcb, _⟩)
          · exact upper_ne_dot hu hdot
          · rw [upper_not_lower hu] at hl; exact absurd hl (by decide)
          · exact absurd hcb (by decide)
        · subst hc
          rintro (hdot | ⟨hcw, _⟩ | ⟨_, hu⟩)
          · exact lower_ne_dot hl hdot
          · exact absurd hcw (by decide)
          · rw [lower_not_upper hl] at hu; exact absurd hu (by decide)
      rw [if_neg hskip] at hs
      obtain ⟨m, hm⟩ : ∃ m, m ∈ get_piece_moves b r x y := by
        cases hmoves : get_piece_moves b r x y with
        | nil => exact absurd hmoves hne
        | cons a l => exact ⟨a, hmoves ▸ List.mem_cons_self a l⟩
      have hfilter := mem_get_piece_moves_not_check hm
      have hcc : (if isUpperCh (getCell b x y) then Color.white else Color.black) = c := by
        rcases hcol with ⟨hc, hu⟩ | ⟨hc, hl⟩
        · rw [if_pos hu, hc]
        · rw [if_neg (by rw [lower_not_upper hl]; exact Bool.false_ne_true), hc]
      rw [hcc] at hfilter
      have hany : (get_piece_moves b r x y).any
          (fun m => !(is_in_check (movePieceBoard b x y m.1 m.2) c)) = true :=
        List.any_eq_true.mpr ⟨m, hm, by simp [hfilter]⟩
      exact hs hany
    · rintro hall ⟨x, y⟩ hsmem
      obtain ⟨hx0, hx8, hy0, hy8⟩ := (mem_boardSquares_iff x y).mp hsmem
      by_cases hskip : (getCell b x y = '.' ∨ (c = Color.white ∧ isLowerCh (getCell b x y)) ∨
          (c = Color.black ∧ isUpperCh (getCell b x y)))
      · rw [if_pos hskip]
        simp
      · rw [if_neg hskip]
        push_neg at hskip
        obtain ⟨hdot, hnw, hnb⟩ := hskip
        have hmoves : get_piece_moves b r x y = [] := by
          cases c with
          | white =>
            by_cases hu : isUpperCh (getCell b x y) = true
            · exact hall x y hx0 hx8 hy0 hy8 (Or.inl ⟨rfl, hu⟩)
            · refine get_piece_moves_uncased_nil b r x y hdot (by simpa using hu) ?_
              have := hnw rfl
              simpa using this
          | black =>
            by_cases hl : isLowerCh (getCell b x y) = true
            · exact hall x y hx0 hx8 hy0 hy8 (Or.inr ⟨rfl, hl⟩)
            · refine get_piece_moves_uncased_nil b r x y hdot ?_ (by simpa using hl)
              have := hnb rfl
              simpa using this
        rw [hmoves]
        simp
  · have hchk2 : is_in_check b c = false := by simpa using hchk
    simp [is_checkmate, hchk2]

/-- A minimal back-rank mate: black rook a1 checks the white king on h1,
the black king on h3 covers the escape squares. -/
def miniMateBoard : Board :=
  [ ['.','.','.','.','.','.','.','.'],
    ['.','.','.','.','.','.','.','.'],
    ['.','.','.','.','.','.','.','.'],
    ['.','.','.','.','.','.','.','.'],
    ['.','.','.','.','.','.','.','.'],
    ['.','.','.','.','.','.','.','k'],
    ['.','.','.','.','.','.','.','.'],
    ['r','.','.','.','.','.','.','K'] ]

/-- Witness for C5: on the mate fixture, `is_checkmate` is true, and the
theorem recovers that white is in check there. -/
theorem is_checkmate_iff_witness : is_in_check miniMateBoard Color.white = true :=
  ((is_checkmate_iff miniMateBoard castlingRightsInit Color.white).mp (by decide)).1


/-- C8: a `/move` request from an in-bounds pair of squares whose source
is empty, whose source piece belongs to the side not on turn, or whose
destination is not in the legal-move set of the source square (which
already excludes destinations leaving the mover's king attacked) is
rejected with an error, and the board after the call is cell-for-cell the
board before it. -/
theorem make_move_rejects (s : SrvState) (fx fy tx ty : Int) (promo : Option Char)
    (hb : validXY fx fy = true ∧ validXY tx ty = true)
    (hcond : getCell s.board fx fy = '.'
      ∨ (s.turn = Color.white ∧ isLowerCh (getCell s.board fx fy) = true)
      ∨ (s.turn = Color.black ∧ isUpperCh (getCell s.board fx fy) = true)
      ∨ (tx, ty) ∉ get_piece_moves s.board s.rights fx fy) :
    (makeMove s fx fy tx ty promo).2.isSome = true ∧
    (makeMove s fx fy tx ty promo).1.board = s.board := by
  have hbv : (validXY fx fy && validXY tx ty) = true := by rw [hb.1, hb.2]; rfl
  by_cases h1 : getCell s.board fx fy = '.'
  · simp [makeMove, hbv, h1]
  · by_cases h2 : s.turn = Color.white ∧ isLowerCh (getCell s.board fx fy) = true
    · simp [makeMove, hbv, h1, h2]
    · by_cases h3 : s.turn = Color.black ∧ isUpperCh (getCell s.board fx fy) = true
      · simp [makeMove, hbv, h1, h2, h3]
      · have h4 : (tx, ty) ∉ get_piece_moves s.board s.rights fx fy := by
          rcases hcond with h | h | h | h
          · exact absurd h h1
          · exact absurd h h2
          · exact absurd h h3
          · exact h
        simp [makeMove, hbv, h1, h2, h3, h4]

/-- The fresh server state of a new game. -/
def initServerState : SrvState :=
  { board := createBoard
    turn := Color.white
    rights := castlingRightsInit
    lastMove := none
    moveCount := 0
    positionHistory := [boardToString createBoard] }

/-- Witness for C8: a request from the empty square e4 on the initial
board is rejected and the board is unchanged. -/
theorem make_move_rejects_witness :
    (makeMove initServerState 4 4 3 4 none).2.isSome = true ∧
    (makeMove initServerState 4 4 3 4 none).1.board = initServerState.board :=
  make_move_rejects initServerState 4 4 3 4 none ⟨by decide, by decide⟩
    (Or.inl (by decide))

/-- C6 amended: an applied move capturing a rook still on its home square
sets exactly that side's corresponding flag false and leaves the other
three flags at their prior values, unless the moving piece itself also
revokes rights (a king moving from its home square, or a rook moving from
a rook home square), which this statement excludes and the counterexample
exhibits. -/
theorem rights_revocation_amended (b : Board) (r : Rights) (fx fy tx ty : Int)
    (hcap : (getCell b tx ty = 'R' ∧ ((tx = 7 ∧ ty = 0) ∨ (tx = 7 ∧ ty = 7))) ∨
            (getCell b tx ty = 'r' ∧ ((tx = 0 ∧ ty = 0) ∨ (tx = 0 ∧ ty = 7))))
    (hK : ¬(getCell b fx fy = 'K' ∧ fx = 7 ∧ fy = 4))
    (hk : ¬(getCell b fx fy = 'k' ∧ fx = 0 ∧ fy = 4))
    (hR : getCell b fx fy = 'R' → ¬(fx = 7 ∧ fy = 0) ∧ ¬(fx = 7 ∧ fy = 7))
    (hr : getCell b fx fy = 'r' → ¬(fx = 0 ∧ fy = 0) ∧ ¬(fx = 0 ∧ fy = 7)) :
    ((tx = 7 ∧ ty = 0) → (movePiece b r fx fy tx ty false).2 = { r with wQ := false }) ∧
    ((tx = 7 ∧ ty = 7) → (movePiece b r fx fy tx ty false).2 = { r with wK := false }) ∧
    ((tx = 0 ∧ ty = 0) → (movePiece b r fx fy tx ty false).2 = { r with bQ := false }) ∧
    ((tx = 0 ∧ ty = 7) → (movePiece b r fx fy tx ty false).2 = { r with bK := false }) := by
  have hcapRr : getCell b tx ty = 'R' ∨ getCell b tx ty = 'r' := by
    rcases hcap with ⟨h, _⟩ | ⟨h, _⟩
    · exact Or.inl h
    · exact Or.inr h
  have hbase : (movePiece b r fx fy tx ty false).2 =
      updateRightsOnCapture tx ty (getCell b tx ty) r := by
    show updateRightsOnMove b fx fy tx ty r = _
    rw [updateRightsOnMove]
    simp only [if_pos hcapRr, if_neg hK, if_neg hk]
    by_cases hpR : getCell b fx fy = 'R'
    · rw [if_pos hpR, if_neg (hR hpR).1, if_neg (hR hpR).2]
      by_cases hpr : getCell b fx fy = 'r'
      · rw [if_pos hpr, if_neg (hr hpr).1, if_neg (hr hpr).2]
      · rw [if_neg hpr]
    · rw [if_neg hpR]
      by_cases hpr : getCell b fx fy = 'r'
      · rw [if_pos hpr, if_neg (hr hpr).1, if_neg (hr hpr).2]
      · rw [if_neg hpr]
  refine ⟨?_, ?_, ?_, ?_⟩
  · rintro ⟨rfl, rfl⟩
    rcases hcap with ⟨hcR, _⟩ | ⟨_, h | h⟩
    · rw [hbase, updateRightsOnCapture, if_pos hcR, if_pos ⟨rfl, rfl⟩]
    · exact absurd h.1 (by decide)
    · exact absurd h.1 (by decide)
  · rintro ⟨rfl, rfl⟩
    rcases hcap with ⟨hcR, _⟩ | ⟨_, h | h⟩
    · rw [hbase, updateRightsOnCapture, if_pos hcR,
        if_neg (by rintro ⟨_, h7⟩; exact absurd h7 (by decide)), if_pos ⟨rfl, rfl⟩]
    · exact absurd h.1 (by decide)
    · exact absurd h.1 (by decide)
  · rintro ⟨rfl, rfl⟩
    rcases hcap with ⟨_, h | h⟩ | ⟨hcr, _⟩
    · exact absurd h.1 (by decide)
    · exact absurd h.1 (by decide)
    · rw [hbase, updateRightsOnCapture,
        if_neg (by intro hRR; rw [hRR] at hcr; exact absurd hcr (by decide)),
        if_pos hcr, if_pos ⟨rfl, rfl⟩]
  · rintro ⟨rfl, rfl⟩
    rcases hcap with ⟨_, h | h⟩ | ⟨hcr, _⟩
    · exact absurd h.1 (by decide)
    · exact absurd h.1 (by decide)
    · rw [hbase, updateRightsOnCapture,
        if_neg (by intro hRR; rw [hRR] at hcr; exact absurd hcr (by decide)),
        if_pos hcr, if_neg (by rintro ⟨_, h7⟩; exact absurd h7 (by decide)),
        if_pos ⟨rfl, rfl⟩]

/-- Fixture for the C6 amendment witness: a white knight on b6 can
capture the black rook still sitting on a8. -/
def knightCaptureBoard : Board :=
  [ ['r','.','.','.','k','.','.','.'],
    ['.','.','.','.','.','.','.','.'],
    ['.','N','.','.','.','.','.','.'],
    ['.','.','.','.','.','.','.','.'],
    ['.','.','.','.','.','.','.','.'],
    ['.','.','.','.','.','.','.','.'],
    ['.','.','.','.','.','.','.','.'],
    ['.','.','.','.','K','.','.','.'] ]

/-- Witness for the C6 amendment: the knight capture on a8 flips exactly
black's queenside flag. -/
theorem rights_revocation_amended_witness :
    (movePiece knightCaptureBoard castlingRightsInit 2 1 0 0 false).2 =
      { castlingRightsInit with bQ := false } :=
  (rights_revocation_amended knightCaptureBoard castlingRightsInit 2 1 0 0
    (Or.inr ⟨by decide, Or.inl ⟨rfl, rfl⟩⟩)
    (by decide) (by decide)
    (fun h => absurd h (by decide)) (fun h => absurd h (by decide))).2.2.1 ⟨rfl, rfl⟩

end Arena
